import Mathlib

/-!
Shallow embedding of the `html_tag` Rust crate (files `src/tags.rs`,
`src/html.rs`, `src/styles.rs`) and proofs about its rendering,
ordering, attribute and stylesheet operations.
-/

set_option maxHeartbeats 1000000

/-- Model of Rust `str::to_lowercase` as used in `TagType::from`
(`src/tags.rs` line 78): lower-case every character. -/
def toLowercase (s : String) : String :=
  ⟨s.data.map Char.toLower⟩

/-- The `TagType` enum of `src/tags.rs` (lines 40-58). -/
inductive TagType where
  | P
  | Div
  | Span
  | A
  | H1
  | H2
  | H3
  | H4
  | H5
  | H6
  | Img
  | Table
  | Tr
  | Td
  | Th
  | Custom (tag : String)
deriving DecidableEq, Repr

/-- `TagType::from` of `src/tags.rs` (lines 77-97): lower-case the
input, match it against the known tag names, otherwise wrap it in
`Custom`. (`from` is a Lean keyword, hence the name `fromStr`.) -/
def TagType.fromStr (tag : String) : TagType :=
  match toLowercase tag with
  | "p" => .P
  | "div" => .Div
  | "span" => .Span
  | "a" => .A
  | "h1" => .H1
  | "h2" => .H2
  | "h3" => .H3
  | "h4" => .H4
  | "h5" => .H5
  | "h6" => .H6
  | "img" => .Img
  | "table" => .Table
  | "tr" => .Tr
  | "td" => .Td
  | "th" => .Th
  | tag => .Custom tag

/-- `TagType::html` of `src/tags.rs` (lines 111-130). -/
def TagType.html : TagType → String
  | .P => "p"
  | .Div => "div"
  | .Span => "span"
  | .A => "a"
  | .H1 => "h1"
  | .H2 => "h2"
  | .H3 => "h3"
  | .H4 => "h4"
  | .H5 => "h5"
  | .H6 => "h6"
  | .Img => "img"
  | .Custom tag => tag
  | .Table => "table"
  | .Tr => "tr"
  | .Td => "td"
  | .Th => "th"

/-- The derived `PartialEq`/`Eq` of `TagType` (`src/tags.rs` line 40):
structural equality of variant and, for `Custom`, the payload string. -/
def TagType.beq : TagType → TagType → Bool
  | .P, .P => true
  | .Div, .Div => true
  | .Span, .Span => true
  | .A, .A => true
  | .H1, .H1 => true
  | .H2, .H2 => true
  | .H3, .H3 => true
  | .H4, .H4 => true
  | .H5, .H5 => true
  | .H6, .H6 => true
  | .Img, .Img => true
  | .Table, .Table => true
  | .Tr, .Tr => true
  | .Td, .Td => true
  | .Th, .Th => true
  | .Custom a, .Custom b => a == b
  | _, _ => false

/-- `Ord for TagType` (`src/tags.rs` lines 145-173): the match arms are
tried from top to bottom, exactly as in the Rust `match`. -/
def TagType.cmp : TagType → TagType → Ordering
  | .Div, _ => .gt
  | _, .Div => .lt
  | .H1, _ => .gt
  | _, .H1 => .lt
  | .H2, _ => .gt
  | _, .H2 => .lt
  | .H3, _ => .gt
  | _, .H3 => .lt
  | .H4, _ => .gt
  | _, .H4 => .lt
  | .H5, _ => .gt
  | _, .H5 => .lt
  | .H6, _ => .gt
  | _, .H6 => .lt
  | .Img, _ => .gt
  | _, .Img => .lt
  | .Custom _, _ => .gt
  | _, .Custom _ => .lt
  | .P, _ => .lt
  | _, .P => .gt
  | .Span, _ => .lt
  | _, .Span => .gt
  | .A, _ => .lt
  | _, _ => .eq

/-- The `HtmlTag` struct of `src/html.rs` (lines 60-68). It is a
recursive record (children are `HtmlTag`s), so it is an inductive with
one constructor; field accessors follow. -/
inductive HtmlTag where
  | mk (tag_type : TagType) (class_names : List String) (id : Option String)
      (body : Option String) (children : Option (List HtmlTag))
      (custom_attributes : Option (List (String × String)))

/-- Field `tag_type` of `HtmlTag`. -/
def HtmlTag.tag_type : HtmlTag → TagType
  | .mk tt _ _ _ _ _ => tt

/-- Field `class_names` of `HtmlTag`. -/
def HtmlTag.class_names : HtmlTag → List String
  | .mk _ cn _ _ _ _ => cn

/-- Field `id` of `HtmlTag`. -/
def HtmlTag.id : HtmlTag → Option String
  | .mk _ _ i _ _ _ => i

/-- Field `body` of `HtmlTag`. -/
def HtmlTag.body : HtmlTag → Option String
  | .mk _ _ _ b _ _ => b

/-- Field `children` of `HtmlTag`. -/
def HtmlTag.children : HtmlTag → Option (List HtmlTag)
  | .mk _ _ _ _ ch _ => ch

/-- Field `custom_attributes` of `HtmlTag`. -/
def HtmlTag.custom_attributes : HtmlTag → Option (List (String × String))
  | .mk _ _ _ _ _ ca => ca

/-- `HtmlTag::new` (`src/html.rs` lines 91-100). -/
def HtmlTag.new (tag_type : String) : HtmlTag :=
  .mk (TagType.fromStr tag_type) [] none none none none

/-- `HtmlTag::fresh` (`src/html.rs` lines 119-128). -/
def HtmlTag.fresh (tag_type : TagType) (body : Option String)
    (class_names : List String) : HtmlTag :=
  .mk tag_type class_names none body none none

/-- `HtmlTag::add_child` (`src/html.rs` lines 148-154). -/
def HtmlTag.add_child : HtmlTag → HtmlTag → HtmlTag
  | .mk tt cn i b ch ca, child =>
    match ch with
    | some children => .mk tt cn i b (some (children ++ [child])) ca
    | none => .mk tt cn i b (some [child]) ca

/-- `HtmlTag::add_class` (`src/html.rs` lines 157-159). -/
def HtmlTag.add_class : HtmlTag → String → HtmlTag
  | .mk tt cn i b ch ca, class_name => .mk tt (cn ++ [class_name]) i b ch ca

/-- `HtmlTag::set_body` (`src/html.rs` lines 162-164). -/
def HtmlTag.set_body : HtmlTag → String → HtmlTag
  | .mk tt cn i _ ch ca, body => .mk tt cn i (some body) ch ca

/-- `HtmlTag::set_id` (`src/html.rs` lines 167-169). -/
def HtmlTag.set_id : HtmlTag → String → HtmlTag
  | .mk tt cn _ b ch ca, i => .mk tt cn (some i) b ch ca

/-- `HtmlTag::add_custom_attribute` (`src/html.rs` lines 235-241). -/
def HtmlTag.add_custom_attribute : HtmlTag → String → String → HtmlTag
  | .mk tt cn i b ch ca, key, value =>
    match ca with
    | some l => .mk tt cn i b ch (some (l ++ [(key, value)]))
    | none => .mk tt cn i b ch (some [(key, value)])

/-- `HtmlTag::add_attribute` (`src/html.rs` lines 227-233). -/
def HtmlTag.add_attribute (t : HtmlTag) (key value : String) : HtmlTag :=
  if key = "class" then t.add_class value
  else if key = "id" then t.set_id value
  else t.add_custom_attribute key value

/-- `HtmlTag::set_style` (`src/html.rs` lines 172-174). -/
def HtmlTag.set_style (t : HtmlTag) (style : String) : HtmlTag :=
  t.add_attribute "style" style

/-- `HtmlTag::set_href` (`src/html.rs` lines 177-179). -/
def HtmlTag.set_href (t : HtmlTag) (href : String) : HtmlTag :=
  t.add_attribute "href" href

/-- `HtmlTag::add_custom` (`src/html.rs` lines 249-255): replaces the
whole custom-attribute list. -/
def HtmlTag.add_custom : HtmlTag → List (String × String) → HtmlTag
  | .mk tt cn i b ch _, attributes => .mk tt cn i b ch (some attributes)

/-- `HtmlTag::get_tags` (`src/html.rs` lines 181-185). -/
def HtmlTag.get_tags (tag_type : TagType) : String × String :=
  ("<" ++ tag_type.html, "</" ++ tag_type.html ++ ">")

/-- `HtmlTag::partial_convert` (`src/html.rs` lines 187-207): the
opening tag followed by the id, class and custom attributes. -/
def HtmlTag.partial_convert : HtmlTag → String
  | .mk tt cn i _ _ ca =>
    let html := (HtmlTag.get_tags tt).1
    let html :=
      match i with
      | some s => html ++ " id=\"" ++ s ++ "\""
      | none => html
    let html :=
      if cn.isEmpty then html
      else html ++ " class=\"" ++ String.intercalate " " cn ++ "\""
    match ca with
    | some l => l.foldl (fun acc kv => acc ++ " " ++ kv.1 ++ "=\"" ++ kv.2 ++ "\"") html
    | none => html

mutual

/-- `HtmlTag::to_html` (`src/html.rs` lines 291-311): attributes, then
`>`; when a body is present the body and closing tag are emitted and the
function returns; otherwise the children (when present) are rendered in
order, then the closing tag. -/
def HtmlTag.to_html : HtmlTag → String
  | .mk tt cn i (some body) ch ca =>
    HtmlTag.partial_convert (.mk tt cn i (some body) ch ca)
      ++ ">" ++ body ++ "</" ++ tt.html ++ ">"
  | .mk tt cn i none (some children) ca =>
    HtmlTag.partial_convert (.mk tt cn i none (some children) ca)
      ++ ">" ++ HtmlTag.to_html_list children ++ (HtmlTag.get_tags tt).2
  | .mk tt cn i none none ca =>
    HtmlTag.partial_convert (.mk tt cn i none none ca)
      ++ ">" ++ (HtmlTag.get_tags tt).2

/-- The `for child in children` loop of `to_html` (`src/html.rs` lines
302-306): concatenate the rendering of each child in order. -/
def HtmlTag.to_html_list : List HtmlTag → String
  | [] => ""
  | c :: cs => c.to_html ++ HtmlTag.to_html_list cs

end

/-!
Embedding of `src/styles.rs`. A `BTreeMap<String, β>` is modelled as an
association list kept sorted by key in strictly ascending `String`
order; iterating the map is iterating the list, and `insert` places the
pair at its sorted position, replacing an existing binding.
-/

/-- `BTreeMap::insert`: put `(k, v)` at its sorted position, replacing
the binding of `k` when present. -/
def mapInsert (k : String) (v : β) : List (String × β) → List (String × β)
  | [] => [(k, v)]
  | (k0, v0) :: rest =>
    if k < k0 then (k, v) :: (k0, v0) :: rest
    else if k = k0 then (k, v) :: rest
    else (k0, v0) :: mapInsert k v rest

/-- `BTreeMap::contains_key`. -/
def containsKey (m : List (String × β)) (k : String) : Bool :=
  m.any fun kv => kv.1 == k

/-- The read of `BTreeMap::get_mut`: the value bound to `k`, when any. -/
def getEntry (m : List (String × β)) (k : String) : Option β :=
  (m.find? fun kv => kv.1 == k).map Prod.snd

/-- The write-back through `BTreeMap::get_mut`: replace the value bound
to `k` by `v`. -/
def setEntry (m : List (String × β)) (k : String) (v : β) : List (String × β) :=
  m.map fun kv => if kv.1 == k then (kv.1, v) else kv

/-- `StyleSheet` (`src/styles.rs` line 3): a sorted map from selector to
a sorted map from property to value. -/
abbrev StyleSheet := List (String × List (String × String))

/-- `Style::get_style_sheet` (`src/styles.rs` lines 21-31): for each
selector, the selector, ` {`, a newline, one indented `property: value;`
line per property, and a closing `}` with a newline. -/
def get_style_sheet (s : StyleSheet) : String :=
  s.foldl
    (fun acc sp =>
      let acc := acc ++ sp.1 ++ " \x7b\n"
      let acc := sp.2.foldl
        (fun acc2 pv => acc2 ++ "    " ++ pv.1 ++ ": " ++ pv.2 ++ ";\n") acc
      acc ++ "\x7d\n")
    ""

/-- `Style::get_with_tag` (`src/styles.rs` lines 33-38). -/
def get_with_tag (s : StyleSheet) : String :=
  "<style>\n" ++ get_style_sheet s ++ "</style>\n"

/-- `Style::add_style` (`src/styles.rs` lines 40-50). The `unwrap` on
`get_mut` is modelled as `Option`: `none` is the panicking branch. -/
def add_style (s : StyleSheet) (selector property value : String) :
    Option StyleSheet :=
  if containsKey s selector then
    match getEntry s selector with
    | none => none
    | some props => some (setEntry s selector (mapInsert property value props))
  else
    some (mapInsert selector (mapInsert property value []) s)

/-- `Style::add_class` (`src/styles.rs` lines 52-61). The `unwrap` on
`get_mut` is modelled as `Option`: `none` is the panicking branch. -/
def add_class (s : StyleSheet) (selector : String)
    (properties : List (String × String)) : Option StyleSheet :=
  if containsKey s selector then
    match getEntry s selector with
    | none => none
    | some current =>
      some (setEntry s selector
        (properties.foldl (fun m pv => mapInsert pv.1 pv.2 m) current))
  else
    some (mapInsert selector properties s)

/-!
Helper definitions and lemmas shared by the proofs.
-/

/-- Concatenation of a list of strings, used to state what the
accumulator loops of the renderers produce. -/
def joinStrings : List String → String
  | [] => ""
  | s :: rest => s ++ joinStrings rest

/-- One selector block of the stylesheet output: the selector, ` {`, a
newline, one `    property: value;` line per property, and `}` with a
newline. -/
def styleBlock (sp : String × List (String × String)) : String :=
  sp.1 ++ " \x7b\n"
    ++ joinStrings (sp.2.map fun pv => "    " ++ pv.1 ++ ": " ++ pv.2 ++ ";\n")
    ++ "\x7d\n"

/-- The tags reachable through the public `HtmlTag` API: `new` or
`fresh` followed by any sequence of mutator calls. -/
inductive Built : HtmlTag → Prop where
  | new (s : String) : Built (HtmlTag.new s)
  | fresh (tt : TagType) (b : Option String) (cns : List String) :
      Built (HtmlTag.fresh tt b cns)
  | add_child {t c : HtmlTag} : Built t → Built c → Built (t.add_child c)
  | add_class {t : HtmlTag} (s : String) : Built t → Built (t.add_class s)
  | set_body {t : HtmlTag} (s : String) : Built t → Built (t.set_body s)
  | set_id {t : HtmlTag} (s : String) : Built t → Built (t.set_id s)
  | set_style {t : HtmlTag} (s : String) : Built t → Built (t.set_style s)
  | set_href {t : HtmlTag} (s : String) : Built t → Built (t.set_href s)
  | add_attribute {t : HtmlTag} (k v : String) :
      Built t → Built (t.add_attribute k v)
  | add_custom {t : HtmlTag} (l : List (String × String)) :
      Built t → Built (t.add_custom l)

theorem foldl_append_join (f : α → String) :
    ∀ (l : List α) (init : String),
      l.foldl (fun acc x => acc ++ f x) init = init ++ joinStrings (l.map f)
  | [], init => by simp [joinStrings]
  | x :: xs, init => by
    simp only [List.foldl_cons, List.map_cons, joinStrings]
    rw [foldl_append_join f xs (init ++ f x), String.append_assoc]

theorem children_add_class (t : HtmlTag) (s : String) :
    (t.add_class s).children = t.children := by
  cases t; rfl

theorem children_set_body (t : HtmlTag) (s : String) :
    (t.set_body s).children = t.children := by
  cases t; rfl

theorem children_set_id (t : HtmlTag) (s : String) :
    (t.set_id s).children = t.children := by
  cases t; rfl

theorem children_add_custom_attribute (t : HtmlTag) (k v : String) :
    (t.add_custom_attribute k v).children = t.children := by
  cases t with
  | mk tt cn i b ch ca => cases ca <;> rfl

theorem children_add_custom (t : HtmlTag) (l : List (String × String)) :
    (t.add_custom l).children = t.children := by
  cases t; rfl

theorem children_add_attribute (t : HtmlTag) (k v : String) :
    (t.add_attribute k v).children = t.children := by
  unfold HtmlTag.add_attribute
  split_ifs <;>
    simp [children_add_class, children_set_id, children_add_custom_attribute]

theorem children_add_child (t c : HtmlTag) :
    (t.add_child c).children = some (t.children.getD [] ++ [c]) := by
  cases t with
  | mk tt cn i b ch ca => cases ch <;> rfl

/-!
The claims.
-/

/-- C3: `TagType::from` never fails, and for every string `s` the
round-trip `TagType::from(s).html()` is the lowercase of `s`: known
names (case-insensitively) map to the known variant whose `html()` is
that lowercase name, and every other string maps to `Custom` holding the
lowercased string, which `html()` returns verbatim. -/
theorem c3_fromStr_html_roundtrip :
    (∀ s : String, (TagType.fromStr s).html = toLowercase s) ∧
    (∀ s : String,
      toLowercase s ∉ (["p", "div", "span", "a", "h1", "h2", "h3", "h4",
        "h5", "h6", "img", "table", "tr", "td", "th"] : List String) →
      TagType.fromStr s = .Custom (toLowercase s)) := by
  constructor
  · intro s
    simp only [TagType.fromStr]
    split
    all_goals first | rfl | (rename_i heq; rw [heq]; rfl)
  · intro s h
    simp only [TagType.fromStr]
    split
    all_goals simp_all

/-- C3 witness: the round-trip at the known name `"DIV"` and at the
unknown name `"MyTag"`. -/
theorem c3_fromStr_html_roundtrip_witness :
    (TagType.fromStr "DIV").html = toLowercase "DIV" ∧
    TagType.fromStr "MyTag" = .Custom (toLowercase "MyTag") :=
  ⟨c3_fromStr_html_roundtrip.1 "DIV",
   c3_fromStr_html_roundtrip.2 "MyTag" (by decide)⟩

/-- C4 counterexample: the claim orders the ladder upside down. It says
`compare(H1, Div)` is greater; in the code the first match arm
`(Div, _) => Greater` and the second `(_, Div) => Less` make `Div` the
maximum, so `compare(H1, Div)` is less. -/
theorem c4_counterexample : ¬ (TagType.cmp .H1 .Div = .gt) := by decide

/-- C4 amended: the priority ladder is
`Div > H1 > H2 > H3 > H4 > H5 > H6 > Img > Custom`: for every `x` in
`{H1..H6, Img, Custom(n)}`, `compare(x, Div)` is less and
`compare(Div, x)` is greater, and consecutive rungs of the ladder
compare in the stated descending order. -/
theorem c4_priority_ladder :
    (TagType.cmp .H1 .Div = .lt ∧ TagType.cmp .Div .H1 = .gt) ∧
    (TagType.cmp .H2 .Div = .lt ∧ TagType.cmp .Div .H2 = .gt) ∧
    (TagType.cmp .H3 .Div = .lt ∧ TagType.cmp .Div .H3 = .gt) ∧
    (TagType.cmp .H4 .Div = .lt ∧ TagType.cmp .Div .H4 = .gt) ∧
    (TagType.cmp .H5 .Div = .lt ∧ TagType.cmp .Div .H5 = .gt) ∧
    (TagType.cmp .H6 .Div = .lt ∧ TagType.cmp .Div .H6 = .gt) ∧
    (TagType.cmp .Img .Div = .lt ∧ TagType.cmp .Div .Img = .gt) ∧
    (∀ n : String,
      TagType.cmp (.Custom n) .Div = .lt ∧ TagType.cmp .Div (.Custom n) = .gt) ∧
    (TagType.cmp .H1 .H2 = .gt ∧ TagType.cmp .H2 .H1 = .lt) ∧
    (TagType.cmp .H2 .H3 = .gt ∧ TagType.cmp .H3 .H2 = .lt) ∧
    (TagType.cmp .H3 .H4 = .gt ∧ TagType.cmp .H4 .H3 = .lt) ∧
    (TagType.cmp .H4 .H5 = .gt ∧ TagType.cmp .H5 .H4 = .lt) ∧
    (TagType.cmp .H5 .H6 = .gt ∧ TagType.cmp .H6 .H5 = .lt) ∧
    (TagType.cmp .H6 .Img = .gt ∧ TagType.cmp .Img .H6 = .lt) ∧
    (∀ n : String,
      TagType.cmp .Img (.Custom n) = .gt ∧ TagType.cmp (.Custom n) .Img = .lt) :=
  ⟨⟨rfl, rfl⟩, ⟨rfl, rfl⟩, ⟨rfl, rfl⟩, ⟨rfl, rfl⟩, ⟨rfl, rfl⟩, ⟨rfl, rfl⟩,
   ⟨rfl, rfl⟩, fun _ => ⟨rfl, rfl⟩, ⟨rfl, rfl⟩, ⟨rfl, rfl⟩, ⟨rfl, rfl⟩,
   ⟨rfl, rfl⟩, ⟨rfl, rfl⟩, ⟨rfl, rfl⟩, fun _ => ⟨rfl, rfl⟩⟩

/-- C5 counterexample: the claim says `compare(A, Span)` returns equal;
in the code the arm `(_, Span) => Greater` fires first, so
`compare(A, Span)` is greater. -/
theorem c5_counterexample : ¬ (TagType.cmp .A .Span = .eq) := by decide

/-- C5 amended: `A`, `Span` and `P` each compare as less than `Div`,
but mutually they form the strict chain `A > Span > P`:
`compare(A, Span)`, `compare(A, P)` and `compare(Span, P)` are greater
and the three flipped comparisons are less; none of the six is equal. -/
theorem c5_a_span_p_chain :
    TagType.cmp .A .Div = .lt ∧ TagType.cmp .Span .Div = .lt ∧
    TagType.cmp .P .Div = .lt ∧
    TagType.cmp .A .Span = .gt ∧ TagType.cmp .Span .A = .lt ∧
    TagType.cmp .A .P = .gt ∧ TagType.cmp .P .A = .lt ∧
    TagType.cmp .Span .P = .gt ∧ TagType.cmp .P .Span = .lt := by
  decide

/-- C9: comparing a `TagType` with itself does not always return equal:
for `Div`, `H1`-`H6`, `Img` and every `Custom(n)`, `compare(x, x)`
returns greater although `x` equals `x` under the derived equality
(`beq x x` is true), so the comparison is inconsistent with equality. -/
theorem c9_cmp_self_gt :
    (TagType.cmp .Div .Div = .gt ∧ TagType.beq .Div .Div = true) ∧
    (TagType.cmp .H1 .H1 = .gt ∧ TagType.beq .H1 .H1 = true) ∧
    (TagType.cmp .H2 .H2 = .gt ∧ TagType.beq .H2 .H2 = true) ∧
    (TagType.cmp .H3 .H3 = .gt ∧ TagType.beq .H3 .H3 = true) ∧
    (TagType.cmp .H4 .H4 = .gt ∧ TagType.beq .H4 .H4 = true) ∧
    (TagType.cmp .H5 .H5 = .gt ∧ TagType.beq .H5 .H5 = true) ∧
    (TagType.cmp .H6 .H6 = .gt ∧ TagType.beq .H6 .H6 = true) ∧
    (TagType.cmp .Img .Img = .gt ∧ TagType.beq .Img .Img = true) ∧
    (∀ n : String,
      TagType.cmp (.Custom n) (.Custom n) = .gt ∧
      TagType.beq (.Custom n) (.Custom n) = true) := by
  refine ⟨⟨rfl, rfl⟩, ⟨rfl, rfl⟩, ⟨rfl, rfl⟩, ⟨rfl, rfl⟩, ⟨rfl, rfl⟩,
    ⟨rfl, rfl⟩, ⟨rfl, rfl⟩, ⟨rfl, rfl⟩, fun n => ⟨rfl, ?_⟩⟩
  simp [TagType.beq]

/-- C1: when `body` is present, `to_html` emits the opening tag with its
attributes, `>`, the body text and the closing tag, and returns without
rendering children: the output does not depend on the `children`
field. -/
theorem c1_body_short_circuit (tt : TagType) (cn : List String)
    (i : Option String) (b : String) (ch : Option (List HtmlTag))
    (ca : Option (List (String × String))) :
    HtmlTag.to_html (.mk tt cn i (some b) ch ca) =
      HtmlTag.partial_convert (.mk tt cn i (some b) ch ca)
        ++ ">" ++ b ++ "</" ++ tt.html ++ ">" ∧
    HtmlTag.to_html (.mk tt cn i (some b) ch ca) =
      HtmlTag.to_html (.mk tt cn i (some b) none ca) :=
  ⟨rfl, rfl⟩

/-- C2: `partial_convert` emits the attributes in the fixed order id,
class, then custom attributes in insertion order; the id attribute is
omitted when `id` is absent and the class attribute is omitted when the
class list is empty. -/
theorem c2_attribute_order (tt : TagType) (cn : List String)
    (i : Option String) (b : Option String) (ch : Option (List HtmlTag))
    (ca : Option (List (String × String))) :
    HtmlTag.partial_convert (.mk tt cn i b ch ca) =
      "<" ++ tt.html
      ++ (match i with
          | some s => " id=\"" ++ s ++ "\""
          | none => "")
      ++ (if cn = [] then ""
          else " class=\"" ++ String.intercalate " " cn ++ "\"")
      ++ (match ca with
          | some l =>
            joinStrings (l.map fun kv => " " ++ kv.1 ++ "=\"" ++ kv.2 ++ "\"")
          | none => "") := by
  cases i <;> cases ca <;> rcases cn with _ | ⟨c, cs⟩ <;>
    simp only [HtmlTag.partial_convert, HtmlTag.get_tags, foldl_append_join,
      List.isEmpty_nil, List.isEmpty_cons, reduceIte, reduceCtorEq,
      List.map_nil, List.map_cons, joinStrings, String.append_empty,
      String.empty_append, String.append_assoc, ite_true, ite_false]

/-- C6: `add_attribute` appends the value to the class list when the key
is `"class"`, overwrites the id when the key is `"id"`, and otherwise
appends the pair to the custom attributes (initializing the sequence
when absent, keeping duplicate keys); no other field changes. -/
theorem c6_add_attribute_cases (tt : TagType) (cn : List String)
    (i : Option String) (b : Option String) (ch : Option (List HtmlTag))
    (ca : Option (List (String × String))) (k v : String) :
    HtmlTag.add_attribute (.mk tt cn i b ch ca) k v =
      if k = "class" then .mk tt (cn ++ [v]) i b ch ca
      else if k = "id" then .mk tt cn (some v) b ch ca
      else .mk tt cn i b ch (some (ca.getD [] ++ [(k, v)])) := by
  cases ca <;>
    simp [HtmlTag.add_attribute, HtmlTag.add_class, HtmlTag.set_id,
      HtmlTag.add_custom_attribute]

/-- C8: for every `HtmlTag` built through the public API, whenever the
`children` field is present it holds a non-empty list: `new` and `fresh`
start with it absent, `add_child` initializes it to a one-element list
or appends, and no operation removes children or empties the field. -/
theorem c8_children_nonempty {t : HtmlTag} (hb : Built t) :
    ∀ l, t.children = some l → l ≠ [] := by
  induction hb with
  | new s => intro l h; simp [HtmlTag.new, HtmlTag.children] at h
  | fresh tt b cns => intro l h; simp [HtmlTag.fresh, HtmlTag.children] at h
  | add_child _ _ iht ihc =>
    intro l h
    rw [children_add_child] at h
    obtain rfl := (Option.some.injEq _ _).mp h.symm
    simp
  | add_class s _ ih => intro l h; rw [children_add_class] at h; exact ih l h
  | set_body s _ ih => intro l h; rw [children_set_body] at h; exact ih l h
  | set_id s _ ih => intro l h; rw [children_set_id] at h; exact ih l h
  | set_style s _ ih =>
    intro l h
    rw [HtmlTag.set_style, children_add_attribute] at h
    exact ih l h
  | set_href s _ ih =>
    intro l h
    rw [HtmlTag.set_href, children_add_attribute] at h
    exact ih l h
  | add_attribute k v _ ih =>
    intro l h; rw [children_add_attribute] at h; exact ih l h
  | add_custom l' _ ih =>
    intro l h; rw [children_add_custom] at h; exact ih l h

/-- C8 witness: a `div` with one `p` child has a present, non-empty
children list. -/
theorem c8_children_nonempty_witness :
    ((HtmlTag.new "div").add_child (HtmlTag.new "p")).children
        = some [HtmlTag.new "p"] ∧ ([HtmlTag.new "p"] : List HtmlTag) ≠ [] :=
  ⟨rfl, c8_children_nonempty
    (Built.add_child (Built.new "div") (Built.new "p")) [HtmlTag.new "p"] rfl⟩

/-- C7: on a stylesheet whose selector map and property maps are sorted
by key (the `BTreeMap` invariant), `get_style_sheet` emits one block per
selector in ascending key order, each block being the selector, ` {`, a
newline, one `    property: value;` line per property in ascending
property order, then `}` and a newline; and `get_with_tag` is exactly
`<style>`, a newline, the `get_style_sheet` output, `</style>` and a
newline. -/
theorem c7_style_sheet_format (s : StyleSheet)
    (h : List.Pairwise (fun a b => a.1 < b.1) s)
    (hp : ∀ sp ∈ s, List.Pairwise (fun a b => a.1 < b.1) sp.2) :
    get_style_sheet s = joinStrings (s.map fun sp => styleBlock sp) ∧
    List.Pairwise (· < ·) (s.map Prod.fst) ∧
    (∀ sp ∈ s, List.Pairwise (· < ·) (sp.2.map Prod.fst)) ∧
    get_with_tag s = "<style>\n" ++ get_style_sheet s ++ "</style>\n" := by
  refine ⟨?_, ?_, ?_, rfl⟩
  · simp only [get_style_sheet, styleBlock, foldl_append_join,
      String.append_assoc, String.empty_append]
  · exact List.pairwise_map.mpr h
  · intro sp hsp; exact List.pairwise_map.mpr (hp sp hsp)

/-- C7 witness: the stylesheet with selectors `.wow` and `h1`, each with
sorted properties. -/
theorem c7_style_sheet_format_witness :
    get_style_sheet
        [(".wow", [("color", "red"), ("display", "flex")]),
         ("h1", [("color", "blue"), ("font-size", "20px")])] =
      joinStrings
        (([(".wow", [("color", "red"), ("display", "flex")]),
           ("h1", [("color", "blue"), ("font-size", "20px")])] :
            StyleSheet).map fun sp => styleBlock sp) ∧
    get_with_tag
        [(".wow", [("color", "red"), ("display", "flex")]),
         ("h1", [("color", "blue"), ("font-size", "20px")])] =
      "<style>\n"
        ++ get_style_sheet
            [(".wow", [("color", "red"), ("display", "flex")]),
             ("h1", [("color", "blue"), ("font-size", "20px")])]
        ++ "</style>\n" := by
  have h := c7_style_sheet_format
    [(".wow", [("color", "red"), ("display", "flex")]),
     ("h1", [("color", "blue"), ("font-size", "20px")])]
    (by simp [String.lt_iff_toList_lt]; decide)
    (by intro sp hsp
        simp at hsp
        rcases hsp with h1 | h2 <;> subst_vars <;>
          · simp [String.lt_iff_toList_lt]; decide)
  exact ⟨h.1, h.2.2.2⟩

theorem getEntry_isSome {β : Type} {m : List (String × β)} {k : String}
    (h : containsKey m k = true) : (getEntry m k).isSome = true := by
  unfold containsKey at h
  unfold getEntry
  rw [List.any_eq_true] at h
  obtain ⟨x, hx, hpx⟩ := h
  have hf : (m.find? fun kv => kv.1 == k).isSome = true :=
    List.find?_isSome.mpr ⟨x, hx, hpx⟩
  simpa using hf

/-- C10: in `add_style` and `add_class` the `unwrap` after
`get_mut(selector)` is unreachable: both calls occur only on the branch
where `contains_key(selector)` returned true, so both operations are
total and never hit the panicking branch (modelled as `none`) for any
inputs. -/
theorem c10_add_never_panics (s : StyleSheet) (selector property value : String)
    (properties : List (String × String)) :
    (add_style s selector property value).isSome = true ∧
    (add_class s selector properties).isSome = true := by
  constructor
  · unfold add_style
    by_cases hc : containsKey s selector = true
    · simp only [hc, if_true]
      have hs := getEntry_isSome hc
      cases hE : getEntry s selector with
      | none => rw [hE] at hs; simp at hs
      | some props => rfl
    · simp [hc]
  · unfold add_class
    by_cases hc : containsKey s selector = true
    · simp only [hc, if_true]
      have hs := getEntry_isSome hc
      cases hE : getEntry s selector with
      | none => rw [hE] at hs; simp at hs
      | some props => rfl
    · simp [hc]
